import Mathlib

/-!
# Verification of the recommendation engine (`src/model/recommenders.py`)

Shallow embedding of the four recommenders (popularity, content-based,
collaborative, hybrid) over `List`/`ℚ`.  Numeric values computed by the Python
code with floats are modelled as rationals.  The two trained structures that
the code obtains from external numeric libraries — the TF-IDF row matrix of
`ContentBasedRecommender` (scikit-learn `TfidfVectorizer`) and the item-item
correlation matrix of `CollaborativeRecommender` (`TruncatedSVD` +
`numpy.corrcoef`) — are parameters of the embedded query functions, since the
claims under scrutiny are about the ranking logic applied to those structures,
not about the numerics that produce them.

Python-dict score maps are modelled as insertion-ordered association lists
(`addScore` mirrors `d[k] = d.get(k, 0) + s`), and Python's stable `sorted`
with `reverse=True` on the score is modelled by `List.insertionSort` with the
relation `b.2 ≤ a.2` (ties keep insertion order, exactly as a stable
descending sort does).
-/

/-- An item of the catalog: one row of `movies_df` (`movieId`, `title`,
genre string; the genre field is pipe- or comma-delimited). -/
structure Movie where
  movieId : Nat
  title : String
  genres : String
deriving DecidableEq, Repr

/-- One row of `ratings_df`: a `(userId, movieId, rating)` observation. -/
structure Rating where
  userId : Nat
  movieId : Nat
  rating : ℚ
deriving DecidableEq, Repr

/-- The `titles` argument of `ContentBasedRecommender.recommend` and
`HybridRecommender.recommend`: Python accepts either a single string or a
list of strings. -/
inductive Titles where
  | str (s : String)
  | list (l : List String)
deriving DecidableEq, Repr

/-- Normalisation performed by the code: a single string is treated as the
one-element list (`recommenders.py` lines 108-109), and the seed-exclusion
set of line 253 is `set(titles)` resp. `{titles}`. -/
def Titles.toList : Titles → List String
  | .str s => [s]
  | .list l => l

/-- `d[k] = d.get(k, 0) + s` on an insertion-ordered association list:
an existing key keeps its position, a new key is appended at the end,
exactly like a Python dict. -/
def addScore {α : Type} [DecidableEq α] : List (α × ℚ) → α → ℚ → List (α × ℚ)
  | [], t, s => [(t, s)]
  | (u, v) :: rest, t, s =>
    if u = t then (u, v + s) :: rest else (u, v) :: addScore rest t s

/-- Lookup in the association-list score map. -/
def lookupScore {α : Type} [DecidableEq α] : List (α × ℚ) → α → Option ℚ
  | [], _ => none
  | (u, v) :: rest, t => if u = t then some v else lookupScore rest t

/-- The keys of a score map, in insertion order. -/
def mapKeys {α : Type} (m : List (α × ℚ)) : List α := m.map Prod.fst

/-- Python's `list.index` for an element that occurs in the list
(`movie_ids.index(movie_id)`, line 198). -/
def idxOf {α : Type} [DecidableEq α] : List α → α → ℕ
  | [], _ => 0
  | a :: rest, t => if a = t then 0 else idxOf rest t + 1

/-- Python's stable `sorted(l, key=score, reverse=True)`: descending in the
second component, ties kept in original order. -/
def sortDesc {α : Type} (l : List (α × ℚ)) : List (α × ℚ) :=
  List.insertionSort (fun a b => b.2 ≤ a.2) l

/-- Ascending sort of plain values (pandas sorts a pivot index / the values
underlying a quantile ascending). -/
def sortAsc {α : Type} [LinearOrder α] (l : List α) : List α :=
  List.insertionSort (fun a b => a ≤ b) l

/-- The selection loop shared by `ContentBasedRecommender.recommend`
(lines 140-145) and `HybridRecommender.recommend` (lines 255-260): walk the
sorted candidates, skip entries in `seeds`, append the rest, and break as
soon as the accumulated length `k + 1` reaches `n`.  Faithful to the Python
`append`-then-`break` shape (in particular, for `n = 0` one element is still
emitted before the break test fires). -/
def selectLoop {α : Type} [DecidableEq α] (seeds : List α) (n : ℕ) :
    List (α × ℚ) → ℕ → List α
  | [], _ => []
  | (t, _) :: rest, k =>
    if t ∈ seeds then selectLoop seeds n rest k
    else if n ≤ k + 1 then [t]
    else t :: selectLoop seeds n rest (k + 1)

/-! ## PopularityRecommender (`recommenders.py` lines 7-53) -/

/-- The `groupby('movieId').agg(count, mean)` row for one movie id, merged
with `how='left'`: `none` models the NaN statistics of a movie with no
ratings. -/
def voteStats (ratings : List Rating) (movieId : ℕ) : Option (ℕ × ℚ) :=
  let rs := (ratings.filter (fun r => decide (r.movieId = movieId))).map Rating.rating
  if rs.length = 0 then none else some (rs.length, rs.sum / (rs.length : ℚ))

/-- `C = popularity_df['vote_average'].mean()` (line 34): pandas `mean`
skips NaN entries; `none` models the all-NaN case. -/
def popC (movies : List Movie) (ratings : List Rating) : Option ℚ :=
  let avgs := movies.filterMap (fun mv => (voteStats ratings mv.movieId).map Prod.snd)
  if avgs.length = 0 then none else some (avgs.sum / (avgs.length : ℚ))

/-- Pandas `Series.quantile(0.9)` with the default linear interpolation:
sort the (non-NaN) values ascending, take position `0.9 * (len - 1)` and
interpolate between the neighbouring order statistics. -/
def quantile90 (vals : List ℚ) : Option ℚ :=
  if vals.length = 0 then none
  else
    let s := sortAsc vals
    let pos : ℚ := (9 / 10) * ((s.length : ℚ) - 1)
    let lo : ℕ := (⌊pos⌋).toNat
    let frac : ℚ := pos - (⌊pos⌋ : ℚ)
    some (s.getD lo 0 + frac * (s.getD (min (lo + 1) (s.length - 1)) 0 - s.getD lo 0))

/-- `m = popularity_df['vote_count'].quantile(0.9)` (line 35), over the
movies that have statistics (`NaN` rows are skipped by pandas). -/
def popM (movies : List Movie) (ratings : List Rating) : Option ℚ :=
  quantile90 (movies.filterMap (fun mv => (voteStats ratings mv.movieId).map (fun p => ((p.1 : ℚ)))))

/-- The IMDB-style weighted rating of line 40-43:
`(v/(v+m)) * R + (m/(v+m)) * C`. -/
def weighted_rating (v : ℕ) (R m C : ℚ) : ℚ :=
  ((v : ℚ) / ((v : ℚ) + m)) * R + (m / ((v : ℚ) + m)) * C

/-- `qualified_movies = popularity_df.loc[vote_count >= m]` (line 38): the
catalog rows whose vote count is at least the 90th percentile, with their
statistics.  A NaN vote count (movie without ratings) never qualifies, and
if `m` itself is NaN (no ratings at all) nothing qualifies. -/
def qualifiedMovies (movies : List Movie) (ratings : List Rating) : List (Movie × ℕ × ℚ) :=
  movies.filterMap (fun mv =>
    (voteStats ratings mv.movieId).bind (fun p =>
      (popM movies ratings).bind (fun m =>
        if m ≤ (p.1 : ℚ) then some (mv, p) else none)))

/-- The trained `popularity_df` after line 48: qualified movies with their
weighted-rating score, sorted descending by score. -/
def popularitySorted (movies : List Movie) (ratings : List Rating) : List (Movie × ℚ) :=
  sortDesc ((qualifiedMovies movies ratings).map (fun q =>
    (q.1, weighted_rating q.2.1 q.2.2 ((popM movies ratings).getD 0) ((popC movies ratings).getD 0))))

/-- `PopularityRecommender.recommend(n)` (lines 50-53):
`popularity_df['title'].head(n).tolist()` (the empty-frame early return is
subsumed by taking from an empty list). -/
def PopularityRecommender.recommend (movies : List Movie) (ratings : List Rating) (n : ℕ) :
    List String :=
  ((popularitySorted movies ratings).map (fun p => p.1.title)).take n

/-! ## ContentBasedRecommender (`recommenders.py` lines 55-147)

The TF-IDF matrix produced in `_train_model` is a parameter
`rows : ℕ → Fin d → ℚ` (row vector of item `i`); the precomputed
`cosine_sim = linear_kernel(tfidf_matrix, tfidf_matrix)` has entries
`dotQ (rows i) (rows j)` (scikit-learn L2-normalises TF-IDF rows, so the
linear kernel of two rows is their cosine). -/

/-- Dot product of two rational vectors. -/
def dotQ {d : ℕ} (u v : Fin d → ℚ) : ℚ :=
  Finset.univ.sum (fun i => u i * v i)

/-- Lines 112-118: resolve each seed title to the first catalog index bearing
that title (`self.indices[t]`, `iloc[0]` on duplicates); unknown titles are
dropped. -/
def contentValidIndices (movies : List Movie) (ts : List String) : List ℕ :=
  ts.filterMap (fun t => movies.findIdx? (fun mv => mv.title == t))

/-- Line 124: `user_profile = self.cosine_sim[valid_indices].mean(axis=0)`,
the per-item score actually used for ranking: the mean over the seed rows of
the precomputed pairwise similarities to item `i`. -/
def contentUserProfile {d : ℕ} (rows : ℕ → Fin d → ℚ) (valid : List ℕ) (i : ℕ) : ℚ :=
  ((valid.map (fun s => dotQ (rows s) (rows i))).sum) / (valid.length : ℚ)

/-- The spec's on-demand query vector: the element-wise mean of the seed
rows' TF-IDF vectors. -/
def contentQueryVec {d : ℕ} (rows : ℕ → Fin d → ℚ) (valid : List ℕ) : Fin d → ℚ :=
  fun j => ((valid.map (fun s => rows s j)).sum) / (valid.length : ℚ)

/-- Spec-side definition for the refinement claim: cosine similarity between
two vectors, `⟨u,v⟩ / (‖u‖·‖v‖)` (with the junk value 0 on a zero vector,
via real division by zero). -/
noncomputable def specCosineSim {d : ℕ} (u v : Fin d → ℚ) : ℝ :=
  ((dotQ u v : ℚ) : ℝ) / (Real.sqrt ((dotQ u u : ℚ) : ℝ) * Real.sqrt ((dotQ v v : ℚ) : ℝ))

/-- Lines 135-136: `sim_scores = sorted(enumerate(user_profile), key=score,
reverse=True)` over the catalog positions `0 .. N-1`. -/
def contentSimSorted {d : ℕ} (movies : List Movie) (rows : ℕ → Fin d → ℚ) (valid : List ℕ) :
    List (ℕ × ℚ) :=
  sortDesc ((List.range movies.length).map (fun i => (i, contentUserProfile rows valid i)))

/-- `ContentBasedRecommender.recommend(titles, n)` (lines 106-147). -/
def ContentBasedRecommender.recommend {d : ℕ} (movies : List Movie) (rows : ℕ → Fin d → ℚ)
    (titles : Titles) (n : ℕ) : List String :=
  let valid := contentValidIndices movies titles.toList
  if valid = [] then []
  else (selectLoop valid n (contentSimSorted movies rows valid) 0).map
    (fun i => (movies.getD i ⟨0, "", ""⟩).title)

/-! ## CollaborativeRecommender (`recommenders.py` lines 149-214)

Training (`_train_model`) pivots the ratings into an item×user matrix,
reduces it with `TruncatedSVD(n_components=min(20, X.shape[1]-1))` and takes
`np.corrcoef` of the reduced rows.  The resulting correlation matrix is the
parameter `corr : ℕ → ℕ → ℚ` (indexed by positions in the pivot index);
only the dimension arithmetic of the training step is embedded. -/

/-- Number of distinct users in the rating table: the column count
`X.shape[1]` of the `movieId × userId` pivot. -/
def userCount (ratings : List Rating) : ℕ :=
  ((ratings.map Rating.userId).dedup).length

/-- Line 168: `n_components = min(20, X.shape[1]-1)` (Python int arithmetic,
so the value can be zero or negative). -/
def nComponents (ratings : List Rating) : ℤ :=
  min 20 ((userCount ratings : ℤ) - 1)

/-- Modelled from scikit-learn's documented contract for `TruncatedSVD`
(the library is outside this repository): `fit_transform` demands
`1 <= n_components` (parameter constraint, raising otherwise) and, for the
default randomized solver, `n_components <= n_features`. -/
def truncatedSVD_ok (n_components : ℤ) (n_features : ℕ) : Prop :=
  1 ≤ n_components ∧ n_components ≤ (n_features : ℤ)

instance (n_components : ℤ) (n_features : ℕ) :
    Decidable (truncatedSVD_ok n_components n_features) :=
  inferInstanceAs (Decidable (_ ∧ _))

/-- The pivot index of line 160/194: the distinct movie ids of the rating
table, ascending (pandas sorts the pivot index). -/
def pivotIndex (ratings : List Rating) : List ℕ :=
  sortAsc ((ratings.map Rating.movieId).dedup)

/-- Line 182: `ratings_df[ratings_df['userId'] == user_id]`. -/
def collabUserRatings (ratings : List Rating) (user_id : ℕ) : List Rating :=
  ratings.filter (fun r => decide (r.userId = user_id))

/-- Lines 187-190: the movie ids the user rated at least 4, falling back to
everything the user rated when that set is empty. -/
def collabHighRated (ratings : List Rating) (user_id : ℕ) : List ℕ :=
  let ur := collabUserRatings ratings user_id
  let high := (ur.filter (fun r => decide ((4 : ℚ) ≤ r.rating))).map Rating.movieId
  if high = [] then ur.map Rating.movieId else high

/-- Lines 203-208, one seed item: walk `enumerate(corr_matrix[idx])`
(positions `i` over the pivot index), and accumulate `corr idx i` onto every
target id not in the high-rated set. -/
def collabAddSeed (corr : ℕ → ℕ → ℚ) (high : List ℕ) (idx : ℕ) :
    List (ℕ × ℚ) → ℕ → List ℕ → List (ℕ × ℚ)
  | m, _, [] => m
  | m, i, target :: rest =>
    collabAddSeed corr high idx
      (if target ∈ high then m else addScore m target (corr idx i)) (i + 1) rest

/-- Lines 192-208: the accumulated `similar_movies_scores` dict; seeds that
are absent from the pivot index contribute nothing. -/
def collabScores (corr : ℕ → ℕ → ℚ) (ratings : List Rating) (user_id : ℕ) :
    List (ℕ × ℚ) :=
  let ids := pivotIndex ratings
  (collabHighRated ratings user_id).foldl
    (fun m movie_id =>
      if movie_id ∈ ids then
        collabAddSeed corr (collabHighRated ratings user_id) (idxOf ids movie_id) m 0 ids
      else m)
    []

/-- Lines 211-212: ids of the top `n` candidates by accumulated score. -/
def collabTopIds (corr : ℕ → ℕ → ℚ) (ratings : List Rating) (user_id n : ℕ) : List ℕ :=
  ((sortDesc (collabScores corr ratings user_id)).take n).map Prod.fst

/-- `CollaborativeRecommender.recommend(user_id, n)` (lines 176-214).  Note
line 214 resolves the selected ids through
`movies_df[movies_df['movieId'].isin(top_movie_ids)]['title']`, which keeps
the catalog row order. -/
def CollaborativeRecommender.recommend (movies : List Movie) (ratings : List Rating)
    (corr : ℕ → ℕ → ℚ) (user_id n : ℕ) : List String :=
  if collabUserRatings ratings user_id = [] then []
  else (movies.filter (fun mv => decide (mv.movieId ∈ collabTopIds corr ratings user_id n))).map
    Movie.title

/-! ## HybridRecommender (`recommenders.py` lines 216-262) -/

/-- Line 244: the rank-fusion weight of the content source. -/
def contentWeight : ℚ := 12 / 10

/-- Line 245: the rank-fusion weight of the collaborative source. -/
def collabWeight : ℚ := 1

/-- Line 246: the rank-fusion weight of the popularity source. -/
def popWeight : ℚ := 4 / 10

/-- Lines 239-242: `add_scores(recs, weight)` — each title at 0-based rank
`i` contributes `(1.0 / (i + 1)) * weight` to the shared dict. -/
def HybridRecommender.add_scores (weight : ℚ) :
    List (String × ℚ) → List String → ℕ → List (String × ℚ)
  | m, [], _ => m
  | m, title :: rest, i =>
    HybridRecommender.add_scores weight
      (addScore m title (1 / ((i : ℚ) + 1) * weight)) rest (i + 1)

/-- Generic weighted reciprocal-rank fusion of three ranked lists (the
pattern of spec §4.4 step 3), with an arbitrary weight triple
(content, collaborative, popularity). -/
def weightedRRF (w : ℚ × ℚ × ℚ) (content_recs collab_recs pop_recs : List String) :
    List (String × ℚ) :=
  HybridRecommender.add_scores w.2.2
    (HybridRecommender.add_scores w.2.1
      (HybridRecommender.add_scores w.1 [] content_recs 0) collab_recs 0) pop_recs 0

/-- Lines 236-246: the fused `all_candidates` dict, built with the fixed
weights 1.2 / 1.0 / 0.4 of the code. -/
def hybridFuse (content_recs collab_recs pop_recs : List String) : List (String × ℚ) :=
  HybridRecommender.add_scores popWeight
    (HybridRecommender.add_scores collabWeight
      (HybridRecommender.add_scores contentWeight [] content_recs 0) collab_recs 0) pop_recs 0

/-- `HybridRecommender.recommend(titles, user_id, n)` (lines 222-262),
parametric in the three sub-models handed to `__init__`: pools of `n*2` from
every sub-recommender, fixed-weight rank fusion, stable descending sort,
then the seed-excluding selection loop. -/
def HybridRecommender.recommend (content_model : Titles → ℕ → List String)
    (collab_model : ℕ → ℕ → List String) (pop_model : ℕ → List String)
    (titles : Titles) (user_id n : ℕ) : List String :=
  selectLoop titles.toList n
    (sortDesc (hybridFuse (content_model titles (n * 2)) (collab_model user_id (n * 2))
      (pop_model (n * 2)))) 0

/-- The number of ratings contributed by a user (the quantity the spec's
adaptive weighting keys on). -/
def ratingCountOf (ratings : List Rating) (user_id : ℕ) : ℕ :=
  (collabUserRatings ratings user_id).length

/-- Modelled from the spec (§4.4 step 1, absent from the code): the adaptive
fusion weight triple (content, collaborative, popularity) selected from the
requesting user's rating count. -/
def specWeights (ratingCount : ℕ) : ℚ × ℚ × ℚ :=
  if 10 ≤ ratingCount then (12 / 10, 14 / 10, 3 / 10)
  else if 1 ≤ ratingCount then (14 / 10, 8 / 10, 4 / 10)
  else (15 / 10, 0, 6 / 10)

/-- Modelled from the spec (§4.4 steps 1-3, absent from the code): gather a
pool of `3n` from each sub-recommender whose adaptive weight is positive
(zero-weight sources are not queried at all) and fuse with weighted
reciprocal rank. -/
def specHybridFuse (ratingCount : ℕ) (content_recs collab_recs pop_recs : ℕ → List String)
    (n : ℕ) : List (String × ℚ) :=
  let w := specWeights ratingCount
  let m1 := if 0 < w.1 then HybridRecommender.add_scores w.1 [] (content_recs (3 * n)) 0 else []
  let m2 := if 0 < w.2.1 then HybridRecommender.add_scores w.2.1 m1 (collab_recs (3 * n)) 0 else m1
  if 0 < w.2.2 then HybridRecommender.add_scores w.2.2 m2 (pop_recs (3 * n)) 0 else m2

/-- The primary genre of a genre field: its first token, i.e. the prefix
before the first pipe or comma delimiter. -/
def primaryGenre (g : String) : String :=
  String.mk (g.data.takeWhile (fun c => !(c == '|' || c == ',')))

/-- The primary genre of the catalog movie bearing a title (first match). -/
def primaryGenreOf (movies : List Movie) (t : String) : String :=
  primaryGenre (((movies.find? (fun mv => mv.title == t)).getD ⟨0, "", ""⟩).genres)

/-- The spec's soft genre cap `max(2, n // 2)`. -/
def maxSlots (n : ℕ) : ℕ := max 2 (n / 2)

/-- Modelled from the spec (§4.4 step 4, absent from the code): walk the
sorted candidates, skip seeds, skip an item whose primary genre already
fills `maxSlots n` selected slots, stop at `n` selections. -/
def specDiversityGo (movies : List Movie) (seeds : List String) (n : ℕ) :
    List (String × ℚ) → List String → List String
  | [], acc => acc
  | (t, _) :: rest, acc =>
    if n ≤ acc.length then acc
    else if t ∈ seeds then specDiversityGo movies seeds n rest acc
    else if maxSlots n ≤ acc.countP (fun u => primaryGenreOf movies u == primaryGenreOf movies t)
      then specDiversityGo movies seeds n rest acc
    else specDiversityGo movies seeds n rest (acc ++ [t])

/-- Modelled from the spec: the diversity-first selection pass over the
fused, sorted candidates. -/
def specDiversityPass (movies : List Movie) (seeds : List String) (n : ℕ)
    (cands : List (String × ℚ)) : List String :=
  specDiversityGo movies seeds n cands []

/-! ## Concrete instances used by the spec's scenarios and by counterexamples -/

/-- A trained content row matrix for a 1-dimensional dummy TF-IDF space
(used where the content similarity values are irrelevant). -/
def oneRows : ℕ → Fin 1 → ℚ := fun _ _ => 1

/-- A trivial trained correlation matrix (used where the collaborative
model's numeric output is irrelevant). -/
def zeroCorr : ℕ → ℕ → ℚ := fun _ _ => 0

/-- The catalog of the spec's popularity scenario:
A(Action), B(Action), C(Drama). -/
def scenMovies : List Movie :=
  [⟨1, "A", "Action"⟩, ⟨2, "B", "Action"⟩, ⟨3, "C", "Drama"⟩]

/-- Ratings realising the spec's popularity scenario: A has 100 votes of
4.5, B has 5 votes of 5.0, C has 50 votes of 4.0. -/
def scenRatings : List Rating :=
  ((List.range 100).map (fun u => ⟨u + 1, 1, 9 / 2⟩))
    ++ ((List.range 5).map (fun u => ⟨u + 1, 2, 5⟩))
    ++ ((List.range 50).map (fun u => ⟨u + 1, 3, 4⟩))

/-- Two-movie catalog for the result-length counterexample. -/
def c2Movies : List Movie := [⟨1, "A", "Action"⟩, ⟨2, "B", "Drama"⟩]

/-- User 1 rates both movies of `c2Movies` (so both qualify as popular). -/
def c2Ratings : List Rating := [⟨1, 1, 5⟩, ⟨1, 2, 5⟩]

/-- Ratings giving user 1 exactly ten ratings (the spec's seasoned-user
weight regime). -/
def c3Ratings : List Rating := (List.range 10).map (fun i => ⟨1, i + 1, 5⟩)

/-- Seven-movie catalog: four Action titles followed by three Drama
titles. -/
def c4Movies : List Movie :=
  [⟨1, "A1", "Action"⟩, ⟨2, "A2", "Action"⟩, ⟨3, "A3", "Action"⟩, ⟨4, "A4", "Action"⟩,
   ⟨5, "D1", "Drama"⟩, ⟨6, "D2", "Drama"⟩, ⟨7, "D3", "Drama"⟩]

/-- User 1 rates each of the seven `c4Movies` once (all seven qualify as
popular with equal scores, so the popularity ranking is catalog order). -/
def c4Ratings : List Rating := (List.range 7).map (fun i => ⟨1, i + 1, 5⟩)

/-- Three-movie catalog for the collaborative ordering counterexample. -/
def c6Movies : List Movie := [⟨1, "T1", "X"⟩, ⟨2, "T2", "X"⟩, ⟨3, "T3", "X"⟩]

/-- User 2 rates movies 1 and 2 low, user 1 rates movie 3 high (so the
pivot index is `[1, 2, 3]` and user 1's seed set is `{3}`). -/
def c6Ratings : List Rating := [⟨2, 1, 1⟩, ⟨2, 2, 1⟩, ⟨1, 3, 5⟩]

/-- A concrete trained correlation matrix: from seed position 2, candidate
position 0 correlates 1/2 and candidate position 1 correlates 3/4. -/
def c6Corr : ℕ → ℕ → ℚ := fun i j =>
  if i = 2 ∧ j = 0 then 1 / 2
  else if i = 2 ∧ j = 1 then 3 / 4
  else if i = j then 1 else 0

/-- Orthogonal unit TF-IDF rows: row 0 is the basis vector e₀ and every
other row is e₁ (so all rows are unit vectors). -/
def c7Rows : ℕ → Fin 2 → ℚ := fun k j =>
  if k = 0 ∧ j = 0 then 1 else if ¬ k = 0 ∧ j = 1 then 1 else 0

/-- Single-movie catalog for the cold-start counterexample. -/
def c9Movies : List Movie := [⟨1, "A", "Action"⟩]

/-- One rating by user 1 on the single movie of `c9Movies` (so the movie is
popular, while user 2 has no ratings). -/
def c9Ratings : List Rating := [⟨1, 1, 5⟩]

/-! ## Helper lemmas: sorting -/

theorem sortDesc_perm {α : Type} (l : List (α × ℚ)) : List.Perm (sortDesc l) l :=
  List.perm_insertionSort _ l

theorem sortDesc_sorted {α : Type} (l : List (α × ℚ)) :
    (sortDesc l).Pairwise (fun a b => b.2 ≤ a.2) := by
  haveI : IsTotal (α × ℚ) (fun a b => b.2 ≤ a.2) := ⟨fun a b => le_total b.2 a.2⟩
  haveI : IsTrans (α × ℚ) (fun a b => b.2 ≤ a.2) := ⟨fun _ _ _ h1 h2 => le_trans h2 h1⟩
  exact List.sorted_insertionSort _ l

theorem sortAsc_perm {α : Type} [LinearOrder α] (l : List α) : List.Perm (sortAsc l) l :=
  List.perm_insertionSort _ l

theorem sortDesc_eq_nil_iff {α : Type} (l : List (α × ℚ)) : sortDesc l = [] ↔ l = [] := by
  constructor
  · intro h
    have hl := (sortDesc_perm l).length_eq
    rw [h] at hl
    exact List.length_eq_zero.mp hl.symm
  · intro h
    subst h
    rfl

theorem pivotIndex_nodup (ratings : List Rating) : (pivotIndex ratings).Nodup :=
  ((sortAsc_perm _).nodup_iff).mpr (List.nodup_dedup _)

/-! ## Helper lemmas: the shared selection loop -/

theorem selectLoop_not_mem_seeds {α : Type} [DecidableEq α] (seeds : List α) (n : ℕ)
    (l : List (α × ℚ)) : ∀ (k : ℕ) (t : α), t ∈ selectLoop seeds n l k → t ∉ seeds := by
  induction l with
  | nil =>
    intro k t h
    simp [selectLoop] at h
  | cons p rest ih =>
    intro k t h
    obtain ⟨u, v⟩ := p
    simp only [selectLoop] at h
    by_cases hu : u ∈ seeds
    · rw [if_pos hu] at h
      exact ih k t h
    · rw [if_neg hu] at h
      by_cases hn : n ≤ k + 1
      · rw [if_pos hn] at h
        simp only [List.mem_singleton] at h
        subst h
        exact hu
      · rw [if_neg hn] at h
        rcases List.mem_cons.mp h with h1 | h2
        · subst h1
          exact hu
        · exact ih (k + 1) t h2

theorem selectLoop_subset_keys {α : Type} [DecidableEq α] (seeds : List α) (n : ℕ)
    (l : List (α × ℚ)) : ∀ (k : ℕ) (t : α), t ∈ selectLoop seeds n l k → t ∈ l.map Prod.fst := by
  induction l with
  | nil =>
    intro k t h
    simp [selectLoop] at h
  | cons p rest ih =>
    intro k t h
    obtain ⟨u, v⟩ := p
    simp only [selectLoop] at h
    simp only [List.map_cons, List.mem_cons]
    by_cases hu : u ∈ seeds
    · rw [if_pos hu] at h
      exact Or.inr (ih k t h)
    · rw [if_neg hu] at h
      by_cases hn : n ≤ k + 1
      · rw [if_pos hn] at h
        simp only [List.mem_singleton] at h
        exact Or.inl h
      · rw [if_neg hn] at h
        rcases List.mem_cons.mp h with h1 | h2
        · exact Or.inl h1
        · exact Or.inr (ih (k + 1) t h2)

theorem selectLoop_eq_take_filter {α : Type} [DecidableEq α] (seeds : List α) (n : ℕ)
    (l : List (α × ℚ)) : ∀ k, k < n →
    selectLoop seeds n l k
      = ((l.map Prod.fst).filter (fun t => decide (t ∉ seeds))).take (n - k) := by
  induction l with
  | nil =>
    intro k _
    simp [selectLoop]
  | cons p rest ih =>
    intro k hk
    obtain ⟨u, v⟩ := p
    simp only [selectLoop, List.map_cons]
    by_cases hu : u ∈ seeds
    · rw [if_pos hu, List.filter_cons_of_neg (by simpa using hu)]
      exact ih k hk
    · rw [if_neg hu, List.filter_cons_of_pos (by simpa using hu)]
      by_cases hn : n ≤ k + 1
      · rw [if_pos hn]
        have h1 : n - k = 1 := by omega
        rw [h1, List.take_one]
        rfl
      · rw [if_neg hn]
        have h1 : n - k = (n - (k + 1)) + 1 := by omega
        rw [h1, List.take_succ_cons, ih (k + 1) (by omega)]

theorem hybridRecommend_eq_take_filter (content_model : Titles → ℕ → List String)
    (collab_model : ℕ → ℕ → List String) (pop_model : ℕ → List String)
    (titles : Titles) (user_id n : ℕ) (hn : 0 < n) :
    HybridRecommender.recommend content_model collab_model pop_model titles user_id n
      = (((sortDesc (hybridFuse (content_model titles (n * 2))
          (collab_model user_id (n * 2)) (pop_model (n * 2)))).map Prod.fst).filter
            (fun t => decide (t ∉ titles.toList))).take n := by
  have h := selectLoop_eq_take_filter titles.toList n
    (sortDesc (hybridFuse (content_model titles (n * 2)) (collab_model user_id (n * 2))
      (pop_model (n * 2)))) 0 hn
  rw [Nat.sub_zero] at h
  exact h

theorem selectLoop_nil_seeds_eq_nil_iff {α : Type} [DecidableEq α] (n : ℕ)
    (l : List (α × ℚ)) (k : ℕ) : selectLoop ([] : List α) n l k = [] ↔ l = [] := by
  cases l with
  | nil => simp [selectLoop]
  | cons p rest =>
    obtain ⟨u, v⟩ := p
    simp only [selectLoop, List.not_mem_nil, if_false]
    by_cases hn : n ≤ k + 1
    · rw [if_pos hn]
      simp
    · rw [if_neg hn]
      simp

/-! ## Helper lemmas: association-list score maps -/

theorem lookupScore_addScore_self {α : Type} [DecidableEq α] (m : List (α × ℚ)) (t : α)
    (s : ℚ) : lookupScore (addScore m t s) t = some ((lookupScore m t).getD 0 + s) := by
  induction m with
  | nil => simp [addScore, lookupScore]
  | cons p rest ih =>
    obtain ⟨u, v⟩ := p
    by_cases hu : u = t
    · subst hu
      simp [addScore, lookupScore]
    · simp only [addScore, if_neg hu, lookupScore, ih]

theorem lookupScore_addScore_ne {α : Type} [DecidableEq α] (m : List (α × ℚ)) (t u : α)
    (s : ℚ) (h : u ≠ t) : lookupScore (addScore m t s) u = lookupScore m u := by
  have htu : ¬ t = u := fun he => h he.symm
  induction m with
  | nil => simp [addScore, lookupScore, htu]
  | cons p rest ih =>
    obtain ⟨a, v⟩ := p
    by_cases ha : a = t
    · subst ha
      simp [addScore, lookupScore, htu]
    · by_cases hau : a = u
      · subst hau
        simp [addScore, ha, lookupScore]
      · simp [addScore, ha, lookupScore, hau, ih]

theorem addScore_ne_nil {α : Type} [DecidableEq α] (m : List (α × ℚ)) (t : α) (s : ℚ) :
    addScore m t s ≠ [] := by
  cases m with
  | nil => simp [addScore]
  | cons p rest =>
    obtain ⟨a, v⟩ := p
    by_cases h : a = t <;> simp [addScore, h]

theorem mapKeys_addScore {α : Type} [DecidableEq α] (m : List (α × ℚ)) (t : α) (s : ℚ) :
    mapKeys (addScore m t s)
      = if t ∈ mapKeys m then mapKeys m else mapKeys m ++ [t] := by
  induction m with
  | nil => simp [addScore, mapKeys]
  | cons p rest ih =>
    obtain ⟨a, v⟩ := p
    by_cases ha : a = t
    · subst ha
      simp [addScore, mapKeys]
    · have hat : ¬ t = a := fun he => ha he.symm
      simp only [addScore, if_neg ha, mapKeys, List.map_cons]
      have ih2 : List.map Prod.fst (addScore rest t s)
          = if t ∈ List.map Prod.fst rest then List.map Prod.fst rest
            else List.map Prod.fst rest ++ [t] := ih
      rw [ih2]
      by_cases ht : t ∈ List.map Prod.fst rest
      · rw [if_pos ht, if_pos (List.mem_cons.mpr (Or.inr ht))]
      · rw [if_neg ht, if_neg (by
          intro hmem
          rcases List.mem_cons.mp hmem with h1 | h2
          · exact hat h1
          · exact ht h2)]
        simp

theorem mapKeys_addScore_nodup {α : Type} [DecidableEq α] (m : List (α × ℚ)) (t : α) (s : ℚ)
    (h : (mapKeys m).Nodup) : (mapKeys (addScore m t s)).Nodup := by
  rw [mapKeys_addScore]
  by_cases ht : t ∈ mapKeys m
  · rwa [if_pos ht]
  · rw [if_neg ht]
    simp [List.nodup_append, h, ht]

theorem mem_mapKeys_addScore {α : Type} [DecidableEq α] (m : List (α × ℚ)) (t : α) (s : ℚ)
    (u : α) : u ∈ mapKeys (addScore m t s) ↔ u ∈ mapKeys m ∨ u = t := by
  rw [mapKeys_addScore]
  by_cases ht : t ∈ mapKeys m
  · rw [if_pos ht]
    constructor
    · exact Or.inl
    · rintro (h1 | rfl)
      · exact h1
      · exact ht
  · rw [if_neg ht]
    simp

theorem mem_mapKeys_add_scores (w : ℚ) (l : List String) :
    ∀ (m : List (String × ℚ)) (i : ℕ) (u : String),
      u ∈ mapKeys (HybridRecommender.add_scores w m l i) ↔ u ∈ mapKeys m ∨ u ∈ l := by
  induction l with
  | nil =>
    intro m i u
    simp [HybridRecommender.add_scores]
  | cons t rest ih =>
    intro m i u
    simp only [HybridRecommender.add_scores]
    rw [ih, mem_mapKeys_addScore]
    simp only [List.mem_cons]
    tauto

theorem mapKeys_add_scores_nodup (w : ℚ) (l : List String) :
    ∀ (m : List (String × ℚ)) (i : ℕ), (mapKeys m).Nodup →
      (mapKeys (HybridRecommender.add_scores w m l i)).Nodup := by
  induction l with
  | nil =>
    intro m i h
    exact h
  | cons t rest ih =>
    intro m i h
    exact ih _ _ (mapKeys_addScore_nodup m t _ h)

theorem add_scores_eq_nil_iff (w : ℚ) (l : List String) :
    ∀ (m : List (String × ℚ)) (i : ℕ),
      HybridRecommender.add_scores w m l i = [] ↔ m = [] ∧ l = [] := by
  induction l with
  | nil =>
    intro m i
    simp [HybridRecommender.add_scores]
  | cons t rest ih =>
    intro m i
    simp only [HybridRecommender.add_scores]
    rw [ih]
    constructor
    · rintro ⟨h1, _⟩
      exact absurd h1 (addScore_ne_nil m t _)
    · rintro ⟨_, h2⟩
      cases h2

theorem mem_mapKeys_hybridFuse (cs ks ps : List String) (u : String) :
    u ∈ mapKeys (hybridFuse cs ks ps) ↔ u ∈ cs ∨ u ∈ ks ∨ u ∈ ps := by
  unfold hybridFuse
  rw [mem_mapKeys_add_scores, mem_mapKeys_add_scores, mem_mapKeys_add_scores]
  have : u ∈ mapKeys ([] : List (String × ℚ)) ↔ False := by simp [mapKeys]
  rw [this]
  tauto

theorem mapKeys_hybridFuse_nodup (cs ks ps : List String) :
    (mapKeys (hybridFuse cs ks ps)).Nodup := by
  exact mapKeys_add_scores_nodup _ _ _ _
    (mapKeys_add_scores_nodup _ _ _ _ (mapKeys_add_scores_nodup _ _ _ _ (by simp [mapKeys])))

theorem hybridFuse_eq_nil_iff (cs ks ps : List String) :
    hybridFuse cs ks ps = [] ↔ cs = [] ∧ ks = [] ∧ ps = [] := by
  simp only [hybridFuse, add_scores_eq_nil_iff]
  tauto

/-! ## Helper lemmas: collaborative score accumulation -/

theorem idxOf_cons_self {α : Type} [DecidableEq α] (a : α) (l : List α) :
    idxOf (a :: l) a = 0 := by
  simp [idxOf]

theorem idxOf_cons_ne {α : Type} [DecidableEq α] (a t : α) (l : List α) (h : ¬ a = t) :
    idxOf (a :: l) t = idxOf l t + 1 := by
  simp [idxOf, h]

theorem lookupScore_collabAddSeed_not_mem (corr : ℕ → ℕ → ℚ) (high : List ℕ) (idx : ℕ) :
    ∀ (targets : List ℕ) (m : List (ℕ × ℚ)) (i id : ℕ), id ∉ targets →
      lookupScore (collabAddSeed corr high idx m i targets) id = lookupScore m id := by
  intro targets
  induction targets with
  | nil =>
    intro m i id _
    rfl
  | cons t rest ih =>
    intro m i id hid
    have hidr : id ∉ rest := fun h => hid (List.mem_cons_of_mem _ h)
    have hidt : id ≠ t := fun h => hid (h ▸ List.mem_cons_self _ _)
    simp only [collabAddSeed]
    rw [ih _ _ _ hidr]
    by_cases ht : t ∈ high
    · rw [if_pos ht]
    · rw [if_neg ht, lookupScore_addScore_ne _ _ _ _ hidt]

theorem lookupScore_collabAddSeed_mem (corr : ℕ → ℕ → ℚ) (high : List ℕ) (idx : ℕ) :
    ∀ (targets : List ℕ), targets.Nodup → ∀ (m : List (ℕ × ℚ)) (i id : ℕ),
      id ∈ targets → id ∉ high →
      lookupScore (collabAddSeed corr high idx m i targets) id
        = some ((lookupScore m id).getD 0 + corr idx (i + idxOf targets id)) := by
  intro targets
  induction targets with
  | nil =>
    intro _ m i id h
    cases h
  | cons t rest ih =>
    intro hnd m i id hmem hhigh
    obtain ⟨htr, hndr⟩ := List.nodup_cons.mp hnd
    rcases List.mem_cons.mp hmem with rfl | hmem2
    · simp only [collabAddSeed, if_neg hhigh]
      rw [lookupScore_collabAddSeed_not_mem _ _ _ _ _ _ _ htr,
        lookupScore_addScore_self, idxOf_cons_self]
      simp
    · have hne : ¬ t = id := fun he => htr (he ▸ hmem2)
      have hstep : lookupScore (if t ∈ high then m else addScore m t (corr idx i)) id
          = lookupScore m id := by
        by_cases ht : t ∈ high
        · rw [if_pos ht]
        · rw [if_neg ht]
          exact lookupScore_addScore_ne _ _ _ _ (fun he => hne he.symm)
      simp only [collabAddSeed]
      rw [ih hndr _ _ _ hmem2 hhigh, hstep, idxOf_cons_ne _ _ _ hne]
      have harith : i + 1 + idxOf rest id = i + (idxOf rest id + 1) := by omega
      rw [harith]

theorem lookupScore_collabFold (corr : ℕ → ℕ → ℚ) (high ids : List ℕ) (hids : ids.Nodup)
    (id : ℕ) (hid : id ∈ ids) (hhigh : id ∉ high) :
    ∀ (seeds : List ℕ) (m : List (ℕ × ℚ)),
      lookupScore (seeds.foldl (fun m movie_id =>
          if movie_id ∈ ids then collabAddSeed corr high (idxOf ids movie_id) m 0 ids
          else m) m) id
      = if (seeds.filter (fun s => decide (s ∈ ids))).length = 0 then lookupScore m id
        else some ((lookupScore m id).getD 0
            + ((seeds.filter (fun s => decide (s ∈ ids))).map
                (fun s => corr (idxOf ids s) (idxOf ids id))).sum) := by
  intro seeds
  induction seeds with
  | nil =>
    intro m
    simp
  | cons s rest ih =>
    intro m
    simp only [List.foldl_cons]
    by_cases hs : s ∈ ids
    · rw [if_pos hs]
      have hstep := lookupScore_collabAddSeed_mem corr high (idxOf ids s) ids hids m 0 id
        hid hhigh
      rw [ih, hstep]
      have hfc : (s :: rest).filter (fun s => decide (s ∈ ids))
          = s :: rest.filter (fun s => decide (s ∈ ids)) :=
        List.filter_cons_of_pos (by simpa using hs)
      rw [hfc]
      by_cases hr : (rest.filter (fun s => decide (s ∈ ids))).length = 0
      · rw [if_pos hr]
        have : rest.filter (fun s => decide (s ∈ ids)) = [] := List.length_eq_zero.mp hr
        rw [this]
        simp
      · rw [if_neg hr, if_neg (by simp)]
        have : rest.filter (fun s => decide (s ∈ ids)) ≠ [] :=
          fun h => hr (by rw [h]; rfl)
        simp only [List.map_cons, List.sum_cons, Option.getD_some]
        congr 1
        rw [add_assoc, Nat.zero_add]
    · rw [if_neg hs]
      have hfc : (s :: rest).filter (fun s => decide (s ∈ ids))
          = rest.filter (fun s => decide (s ∈ ids)) :=
        List.filter_cons_of_neg (by simpa using hs)
      rw [ih, hfc]

theorem lookupScore_collabScores (corr : ℕ → ℕ → ℚ) (ratings : List Rating) (user_id id : ℕ)
    (hid : id ∈ pivotIndex ratings) (hhigh : id ∉ collabHighRated ratings user_id) :
    lookupScore (collabScores corr ratings user_id) id
      = if ((collabHighRated ratings user_id).filter
            (fun s => decide (s ∈ pivotIndex ratings))).length = 0 then none
        else some ((((collabHighRated ratings user_id).filter
            (fun s => decide (s ∈ pivotIndex ratings))).map
              (fun s => corr (idxOf (pivotIndex ratings) s) (idxOf (pivotIndex ratings) id))).sum) := by
  have h := lookupScore_collabFold corr (collabHighRated ratings user_id) (pivotIndex ratings)
    (pivotIndex_nodup ratings) id hid hhigh (collabHighRated ratings user_id) []
  simp only [collabScores]
  rw [h]
  by_cases hc : (((collabHighRated ratings user_id).filter
      (fun s => decide (s ∈ pivotIndex ratings))).length) = 0
  · rw [if_pos hc, if_pos hc]
    rfl
  · rw [if_neg hc, if_neg hc]
    simp [lookupScore]

/-! ## Helper lemmas: content-based scores -/

theorem dotQ_self_nonneg {d : ℕ} (u : Fin d → ℚ) : 0 ≤ dotQ u u :=
  Finset.sum_nonneg fun i _ => mul_self_nonneg (u i)

theorem dotQ_self_eq_zero_iff {d : ℕ} (u : Fin d → ℚ) : dotQ u u = 0 ↔ ∀ j, u j = 0 := by
  unfold dotQ
  rw [Finset.sum_eq_zero_iff_of_nonneg (fun i _ => mul_self_nonneg (u i))]
  constructor
  · intro h j
    exact mul_self_eq_zero.mp (h j (Finset.mem_univ j))
  · intro h j _
    rw [h j, mul_zero]

theorem dotQ_zero_of_self_zero {d : ℕ} (u v : Fin d → ℚ) (h : dotQ u u = 0) :
    dotQ u v = 0 := by
  have hz := (dotQ_self_eq_zero_iff u).mp h
  unfold dotQ
  exact Finset.sum_eq_zero fun i _ => by rw [hz i, zero_mul]

theorem dotQ_listSum {d : ℕ} (rows : ℕ → Fin d → ℚ) (v : Fin d → ℚ) (l : List ℕ) :
    dotQ (fun j => (l.map (fun s => rows s j)).sum) v
      = (l.map (fun s => dotQ (rows s) v)).sum := by
  induction l with
  | nil => simp [dotQ]
  | cons a rest ih =>
    simp only [List.map_cons, List.sum_cons]
    rw [← ih]
    unfold dotQ
    rw [← Finset.sum_add_distrib]
    exact Finset.sum_congr rfl fun i _ => by ring

theorem dotQ_div {d : ℕ} (u : Fin d → ℚ) (v : Fin d → ℚ) (c : ℚ) :
    dotQ (fun j => u j / c) v = dotQ u v / c := by
  unfold dotQ
  rw [Finset.sum_div]
  exact Finset.sum_congr rfl fun i _ => by ring

theorem contentUserProfile_eq_dotQ {d : ℕ} (rows : ℕ → Fin d → ℚ) (valid : List ℕ)
    (i : ℕ) : contentUserProfile rows valid i = dotQ (contentQueryVec rows valid) (rows i) := by
  unfold contentUserProfile contentQueryVec
  rw [dotQ_div (fun j => (valid.map (fun s => rows s j)).sum) (rows i) ((valid.length : ℚ)),
    dotQ_listSum]

/-! ## Helper lemmas: popularity table -/

theorem mem_qualifiedMovies (movies : List Movie) (ratings : List Rating) (mv : Movie)
    (v : ℕ) (R : ℚ) :
    (mv, v, R) ∈ qualifiedMovies movies ratings ↔
      mv ∈ movies ∧ voteStats ratings mv.movieId = some (v, R) ∧
        ∃ m, popM movies ratings = some m ∧ m ≤ (v : ℚ) := by
  unfold qualifiedMovies
  rw [List.mem_filterMap]
  constructor
  · rintro ⟨a, ha, hfa⟩
    cases hvs : voteStats ratings a.movieId with
    | none => rw [hvs] at hfa; cases hfa
    | some p =>
      obtain ⟨pv, pR⟩ := p
      cases hpm : popM movies ratings with
      | none =>
        rw [hvs, hpm] at hfa
        simp only [Option.some_bind, Option.none_bind] at hfa
        cases hfa
      | some m =>
        rw [hvs, hpm] at hfa
        simp only [Option.some_bind] at hfa
        by_cases hle : m ≤ (pv : ℚ)
        · rw [if_pos hle] at hfa
          simp only [Option.some.injEq, Prod.mk.injEq] at hfa
          obtain ⟨rfl, rfl, rfl⟩ := hfa
          exact ⟨ha, hvs, m, rfl, hle⟩
        · rw [if_neg hle] at hfa
          cases hfa
  · rintro ⟨hmv, hvs, m, hpm, hle⟩
    refine ⟨mv, hmv, ?_⟩
    rw [hvs, hpm]
    simp only [Option.some_bind]
    rw [if_pos hle]

theorem popC_isSome (movies : List Movie) (ratings : List Rating) (mv : Movie)
    (p : ℕ × ℚ) (hmv : mv ∈ movies) (hvs : voteStats ratings mv.movieId = some p) :
    ∃ c, popC movies ratings = some c := by
  have hmem : p.2 ∈ movies.filterMap (fun mv => (voteStats ratings mv.movieId).map Prod.snd) :=
    List.mem_filterMap.mpr ⟨mv, hmv, by rw [hvs]; rfl⟩
  have hne : ¬ (movies.filterMap
      (fun mv => (voteStats ratings mv.movieId).map Prod.snd)).length = 0 := by
    intro h
    rw [List.length_eq_zero] at h
    rw [h] at hmem
    cases hmem
  simp only [popC]
  rw [if_neg hne]
  exact ⟨_, rfl⟩

theorem mem_popularitySorted (movies : List Movie) (ratings : List Rating) (mv : Movie)
    (s : ℚ) :
    (mv, s) ∈ popularitySorted movies ratings ↔
      ∃ v R, (mv, v, R) ∈ qualifiedMovies movies ratings ∧
        s = weighted_rating v R ((popM movies ratings).getD 0) ((popC movies ratings).getD 0) := by
  unfold popularitySorted
  rw [(sortDesc_perm _).mem_iff, List.mem_map]
  constructor
  · rintro ⟨⟨a, v, R⟩, hq, heq⟩
    simp only [Prod.mk.injEq] at heq
    obtain ⟨rfl, rfl⟩ := heq
    exact ⟨v, R, hq, rfl⟩
  · rintro ⟨v, R, hq, rfl⟩
    exact ⟨(mv, v, R), hq, rfl⟩

theorem qualifiedMovies_ratings_nil (movies : List Movie) :
    qualifiedMovies movies [] = [] := by
  unfold qualifiedMovies
  rw [List.filterMap_eq_nil_iff]
  intro mv _
  rfl

theorem popularitySorted_eq_nil (movies : List Movie) (ratings : List Rating)
    (h : qualifiedMovies movies ratings = []) : popularitySorted movies ratings = [] := by
  unfold popularitySorted
  rw [h]
  rfl

/-! ## Claims -/

/-- C1: for every seed argument, user id and n, the list returned by
`HybridRecommender.recommend` contains no title that is a member of the seed
set (the selection loop of lines 255-260 emits only titles outside
`input_titles`). -/
theorem c1_hybrid_excludes_seeds (content_model : Titles → ℕ → List String)
    (collab_model : ℕ → ℕ → List String) (pop_model : ℕ → List String)
    (titles : Titles) (user_id n : ℕ) (t : String)
    (ht : t ∈ HybridRecommender.recommend content_model collab_model pop_model
      titles user_id n) :
    t ∉ titles.toList :=
  selectLoop_not_mem_seeds titles.toList n _ 0 t ht

theorem c1_hybrid_excludes_seeds_witness :
    "A" ∈ HybridRecommender.recommend (fun _ _ => ["A"]) (fun _ _ => []) (fun _ => [])
        (Titles.list ["B"]) 0 1
      ∧ "A" ∉ (Titles.list ["B"]).toList :=
  ⟨of_decide_eq_true (by with_unfolding_all rfl),
   c1_hybrid_excludes_seeds (fun _ _ => ["A"]) (fun _ _ => []) (fun _ => [])
     (Titles.list ["B"]) 0 1 "A" (of_decide_eq_true (by with_unfolding_all rfl))⟩

/-- C10: a single-string seed argument behaves exactly like the one-element
list containing it: `ContentBasedRecommender.recommend` normalises it
(lines 108-109) and `HybridRecommender.recommend` builds the same exclusion
set from it (line 253), so both calls return the same output as the
one-element-list calls. -/
theorem c10_single_string_titles {d : ℕ} (movies : List Movie) (rows : ℕ → Fin d → ℚ)
    (collab_model : ℕ → ℕ → List String) (pop_model : ℕ → List String)
    (t : String) (user_id n : ℕ) :
    ContentBasedRecommender.recommend movies rows (Titles.str t) n
        = ContentBasedRecommender.recommend movies rows (Titles.list [t]) n
      ∧ HybridRecommender.recommend (ContentBasedRecommender.recommend movies rows)
          collab_model pop_model (Titles.str t) user_id n
        = HybridRecommender.recommend (ContentBasedRecommender.recommend movies rows)
          collab_model pop_model (Titles.list [t]) user_id n :=
  ⟨rfl, rfl⟩

/-- C3 counterexample: user 1 of `c3Ratings` has exactly ten ratings, for
which the spec prescribes the weight triple (1.2, 1.4, 0.3); but on the
pools content = ["A"], collaborative = ["B"], popularity = [], the code
scores "B" with its fixed collaborative weight 1.0 while the spec's fusion
scores it 1.4, and the resulting outputs differ: the code returns
["A", "B"], the spec-prescribed fusion ranks ["B", "A"]. -/
theorem c3_weights_counterexample :
    ratingCountOf c3Ratings 1 = 10
      ∧ specWeights (ratingCountOf c3Ratings 1) = (12 / 10, 14 / 10, 3 / 10)
      ∧ lookupScore (hybridFuse ["A"] ["B"] []) "B" = some 1
      ∧ lookupScore (specHybridFuse (ratingCountOf c3Ratings 1)
          (fun _ => ["A"]) (fun _ => ["B"]) (fun _ => []) 2) "B" = some (14 / 10)
      ∧ HybridRecommender.recommend (fun _ _ => ["A"]) (fun _ _ => ["B"]) (fun _ => [])
          (Titles.list []) 1 2 = ["A", "B"]
      ∧ selectLoop ([] : List String) 2 (sortDesc (specHybridFuse (ratingCountOf c3Ratings 1)
          (fun _ => ["A"]) (fun _ => ["B"]) (fun _ => []) 2)) 0 = ["B", "A"] :=
  of_decide_eq_true (by with_unfolding_all rfl)

/-- C3 (amended): the fusion weights of `HybridRecommender.recommend` are the
fixed triple (content 1.2, collaborative 1.0, popularity 0.4) for every
user: the fused map is the generic weighted reciprocal-rank fusion at
exactly that triple over pools of 2n gathered from all three
sub-recommenders, and the output depends on the requesting user only through
the collaborative sub-recommender's output — no rating-count-based weight
selection exists. -/
theorem c3_fixed_weights (content_model : Titles → ℕ → List String)
    (collab_model : ℕ → ℕ → List String) (pop_model : ℕ → List String)
    (titles : Titles) (user_id n : ℕ) :
    (contentWeight, collabWeight, popWeight) = (12 / 10, 1, 4 / 10)
      ∧ hybridFuse (content_model titles (n * 2)) (collab_model user_id (n * 2))
          (pop_model (n * 2))
        = weightedRRF (contentWeight, collabWeight, popWeight)
            (content_model titles (n * 2)) (collab_model user_id (n * 2))
            (pop_model (n * 2))
      ∧ ∀ user2, collab_model user_id (n * 2) = collab_model user2 (n * 2) →
          HybridRecommender.recommend content_model collab_model pop_model titles user_id n
            = HybridRecommender.recommend content_model collab_model pop_model titles
                user2 n := by
  refine ⟨rfl, rfl, ?_⟩
  intro user2 h
  unfold HybridRecommender.recommend
  rw [h]

theorem c3_fixed_weights_witness :
    HybridRecommender.recommend (fun _ _ => ["A"]) (fun _ _ => ["B"]) (fun _ => [])
        (Titles.list []) 3 1
      = HybridRecommender.recommend (fun _ _ => ["A"]) (fun _ _ => ["B"]) (fun _ => [])
        (Titles.list []) 5 1 :=
  (c3_fixed_weights (fun _ _ => ["A"]) (fun _ _ => ["B"]) (fun _ => [])
    (Titles.list []) 3 1).2.2 5 rfl

/-- C4 counterexample: on the seven-movie catalog `c4Movies` (four Action
titles ranked above three Drama titles), seeds = [], n = 6, the code's
result holds 4 Action titles, exceeding the cap max(2, 6 // 2) = 3 — and
the spec's own diversity-first pass would have returned a full 6 items on
this input, so the fallback-backfill escape clause of the claim cannot
apply. -/
theorem c4_diversity_counterexample :
    (HybridRecommender.recommend (ContentBasedRecommender.recommend c4Movies oneRows)
        (CollaborativeRecommender.recommend c4Movies c4Ratings zeroCorr)
        (PopularityRecommender.recommend c4Movies c4Ratings) (Titles.list []) 99 6).length = 6
      ∧ (HybridRecommender.recommend (ContentBasedRecommender.recommend c4Movies oneRows)
          (CollaborativeRecommender.recommend c4Movies c4Ratings zeroCorr)
          (PopularityRecommender.recommend c4Movies c4Ratings) (Titles.list []) 99 6).countP
            (fun t => primaryGenreOf c4Movies t == "Action") = 4
      ∧ maxSlots 6 = 3
      ∧ (specDiversityPass c4Movies [] 6 (sortDesc (hybridFuse
          (ContentBasedRecommender.recommend c4Movies oneRows (Titles.list []) 12)
          (CollaborativeRecommender.recommend c4Movies c4Ratings zeroCorr 99 12)
          (PopularityRecommender.recommend c4Movies c4Ratings 12)))).length = 6 :=
  of_decide_eq_true (by with_unfolding_all rfl)

/-- C4 (amended): the code applies no genre-diversity constraint at all:
for every positive n the hybrid result is exactly the first n non-seed
titles of the fused, score-sorted ranking, with no genre tracked and no
skipping or backfill pass. -/
theorem c4_no_diversity_cap (content_model : Titles → ℕ → List String)
    (collab_model : ℕ → ℕ → List String) (pop_model : ℕ → List String)
    (titles : Titles) (user_id n : ℕ) (hn : 0 < n) :
    HybridRecommender.recommend content_model collab_model pop_model titles user_id n
      = (((sortDesc (hybridFuse (content_model titles (n * 2))
          (collab_model user_id (n * 2)) (pop_model (n * 2)))).map Prod.fst).filter
            (fun t => decide (t ∉ titles.toList))).take n :=
  hybridRecommend_eq_take_filter content_model collab_model pop_model titles user_id n hn

theorem c4_no_diversity_cap_witness :
    HybridRecommender.recommend (fun _ _ => ["A"]) (fun _ _ => []) (fun _ => [])
        (Titles.list []) 0 1
      = (((sortDesc (hybridFuse ["A"] [] [])).map Prod.fst).filter
          (fun t => decide (t ∉ (Titles.list []).toList))).take 1 :=
  c4_no_diversity_cap (fun _ _ => ["A"]) (fun _ _ => []) (fun _ => []) (Titles.list []) 0 1
    (by decide)

/-- C8 counterexample: a rating table whose pivot has a single distinct user
column yields `n_components = min(20, 1 - 1) = 0`, violating the SVD's
`n_components ≥ 1` requirement: the training step raises on this table
instead of "never raising". -/
theorem c8_single_user_counterexample :
    userCount c9Ratings = 1 ∧ nComponents c9Ratings = 0
      ∧ ¬ truncatedSVD_ok (nComponents c9Ratings) (userCount c9Ratings) :=
  of_decide_eq_true (by with_unfolding_all rfl)

/-- C8 (amended): training computes `n_components = min(20, user_count − 1)`
(line 168); whenever there are at least two distinct users this value lies
in `[1, user_count]` and satisfies the SVD's documented constraints — in
particular training does not raise when there are fewer distinct users than
the requested 20 latent dimensions, as long as there are at least two — but
with one distinct user (or none) the computed value is ≤ 0 and the SVD's
`n_components ≥ 1` constraint is violated. -/
theorem c8_svd_components (ratings : List Rating) :
    nComponents ratings = min 20 ((userCount ratings : ℤ) - 1)
      ∧ (2 ≤ userCount ratings →
          truncatedSVD_ok (nComponents ratings) (userCount ratings))
      ∧ (userCount ratings ≤ 1 →
          ¬ truncatedSVD_ok (nComponents ratings) (userCount ratings)) := by
  refine ⟨rfl, ?_, ?_⟩
  · intro h
    unfold truncatedSVD_ok nComponents
    omega
  · intro h
    unfold truncatedSVD_ok nComponents
    omega

theorem c8_svd_components_witness :
    truncatedSVD_ok (nComponents c6Ratings) (userCount c6Ratings)
      ∧ ¬ truncatedSVD_ok (nComponents c9Ratings) (userCount c9Ratings) :=
  ⟨(c8_svd_components c6Ratings).2.1 (of_decide_eq_true (by with_unfolding_all rfl)),
   (c8_svd_components c9Ratings).2.2 (of_decide_eq_true (by with_unfolding_all rfl))⟩

/-- C9 counterexample: user 2 of `c9Ratings` has no ratings, the popularity
pool is the non-empty ["A"], yet the hybrid result is empty, because the
only candidate title is the seed itself — the claimed unconditional
non-emptiness fails. -/
theorem c9_cold_start_counterexample :
    collabUserRatings c9Ratings 2 = []
      ∧ PopularityRecommender.recommend c9Movies c9Ratings (1 * 2) = ["A"]
      ∧ HybridRecommender.recommend (ContentBasedRecommender.recommend c9Movies oneRows)
          (CollaborativeRecommender.recommend c9Movies c9Ratings zeroCorr)
          (PopularityRecommender.recommend c9Movies c9Ratings)
          (Titles.list ["A"]) 2 1 = [] :=
  of_decide_eq_true (by with_unfolding_all rfl)

/-- C9 (amended): for a requesting user with zero ratings no exception can
arise (every function involved is total): the collaborative recommender
returns [] (lines 182-184), so the fused candidate map receives no
collaborative contribution — the hybrid output equals the output with an
always-empty collaborative source — and when the seed set is empty the
result is empty exactly when the content pool and the popularity pool are
both empty.  (Without the empty-seed proviso, non-emptiness of a pool does
not guarantee a non-empty result: every candidate title may be a seed.) -/
theorem c9_cold_start (movies : List Movie) (ratings : List Rating) (corr : ℕ → ℕ → ℚ)
    (content_model : Titles → ℕ → List String) (pop_model : ℕ → List String)
    (titles : Titles) (user_id n : ℕ)
    (hu : collabUserRatings ratings user_id = []) :
    (∀ m, CollaborativeRecommender.recommend movies ratings corr user_id m = [])
      ∧ HybridRecommender.recommend content_model
          (CollaborativeRecommender.recommend movies ratings corr) pop_model titles user_id n
        = HybridRecommender.recommend content_model (fun _ _ => []) pop_model titles user_id n
      ∧ (titles.toList = [] →
          (HybridRecommender.recommend content_model
              (CollaborativeRecommender.recommend movies ratings corr) pop_model titles
                user_id n = []
            ↔ content_model titles (n * 2) = [] ∧ pop_model (n * 2) = [])) := by
  have hcol : ∀ m, CollaborativeRecommender.recommend movies ratings corr user_id m = [] := by
    intro m
    unfold CollaborativeRecommender.recommend
    rw [if_pos hu]
  refine ⟨hcol, ?_, ?_⟩
  · unfold HybridRecommender.recommend
    rw [hcol (n * 2)]
  · intro hT
    unfold HybridRecommender.recommend
    rw [hcol (n * 2), hT]
    rw [selectLoop_nil_seeds_eq_nil_iff, sortDesc_eq_nil_iff, hybridFuse_eq_nil_iff]
    constructor
    · rintro ⟨h1, _, h3⟩
      exact ⟨h1, h3⟩
    · rintro ⟨h1, h3⟩
      exact ⟨h1, rfl, h3⟩

theorem c9_cold_start_witness :
    HybridRecommender.recommend (ContentBasedRecommender.recommend c9Movies oneRows)
        (CollaborativeRecommender.recommend c9Movies c9Ratings zeroCorr)
        (PopularityRecommender.recommend c9Movies c9Ratings) (Titles.list []) 2 1 = []
      ↔ ContentBasedRecommender.recommend c9Movies oneRows (Titles.list []) (1 * 2) = []
        ∧ PopularityRecommender.recommend c9Movies c9Ratings (1 * 2) = [] :=
  (c9_cold_start c9Movies c9Ratings zeroCorr
    (ContentBasedRecommender.recommend c9Movies oneRows)
    (PopularityRecommender.recommend c9Movies c9Ratings) (Titles.list []) 2 1
    (by with_unfolding_all rfl)).2.2 rfl

/-- C2 counterexample: on the two-movie catalog `c2Movies` with the seed
list ["X"] (a title absent from the catalog) and n = 2, the hybrid pipeline
returns both catalog titles: its length 2 exceeds catalog size (2) minus
seed-set size (1). -/
theorem c2_length_counterexample :
    HybridRecommender.recommend (ContentBasedRecommender.recommend c2Movies oneRows)
        (CollaborativeRecommender.recommend c2Movies c2Ratings zeroCorr)
        (PopularityRecommender.recommend c2Movies c2Ratings)
        (Titles.list ["X"]) 2 2 = ["A", "B"]
      ∧ c2Movies.length = 2 ∧ (Titles.list ["X"]).toList.length = 1 :=
  of_decide_eq_true (by with_unfolding_all rfl)

/-- C2 (amended): for every positive n, the hybrid result has no duplicate
titles, at most n entries, and no more entries than there are distinct
catalog titles outside the seed set, provided every sub-recommender output
consists of catalog titles.  (The original bound "catalog size − seed-set
size" additionally requires every seed to be a catalog title; a seed outside
the catalog shrinks that difference without shrinking the candidate set.) -/
theorem c2_hybrid_length_bounds (movies : List Movie)
    (content_model : Titles → ℕ → List String) (collab_model : ℕ → ℕ → List String)
    (pop_model : ℕ → List String) (titles : Titles) (user_id n : ℕ) (hn : 0 < n)
    (hsub : ∀ t, t ∈ content_model titles (n * 2) ++ collab_model user_id (n * 2)
        ++ pop_model (n * 2) → t ∈ movies.map Movie.title) :
    (HybridRecommender.recommend content_model collab_model pop_model titles user_id n).Nodup
      ∧ (HybridRecommender.recommend content_model collab_model pop_model titles
          user_id n).length ≤ n
      ∧ (HybridRecommender.recommend content_model collab_model pop_model titles
          user_id n).length
        ≤ ((movies.map Movie.title).dedup.filter
            (fun t => decide (t ∉ titles.toList))).length := by
  have hrec : HybridRecommender.recommend content_model collab_model pop_model titles user_id n
      = (((sortDesc (hybridFuse (content_model titles (n * 2)) (collab_model user_id (n * 2))
          (pop_model (n * 2)))).map Prod.fst).filter
            (fun t => decide (t ∉ titles.toList))).take n :=
    hybridRecommend_eq_take_filter content_model collab_model pop_model titles user_id n hn
  have hperm : List.Perm ((sortDesc (hybridFuse (content_model titles (n * 2))
      (collab_model user_id (n * 2)) (pop_model (n * 2)))).map Prod.fst)
        (mapKeys (hybridFuse (content_model titles (n * 2)) (collab_model user_id (n * 2))
          (pop_model (n * 2)))) :=
    (sortDesc_perm _).map _
  have hkeys : ((sortDesc (hybridFuse (content_model titles (n * 2))
      (collab_model user_id (n * 2)) (pop_model (n * 2)))).map Prod.fst).Nodup :=
    hperm.nodup_iff.mpr (mapKeys_hybridFuse_nodup _ _ _)
  have hsubl : (((sortDesc (hybridFuse (content_model titles (n * 2))
      (collab_model user_id (n * 2)) (pop_model (n * 2)))).map Prod.fst).filter
        (fun t => decide (t ∉ titles.toList))).take n
      |>.Sublist ((sortDesc (hybridFuse (content_model titles (n * 2))
        (collab_model user_id (n * 2)) (pop_model (n * 2)))).map Prod.fst) :=
    (List.take_sublist _ _).trans (List.filter_sublist _)
  have hnodup := hsubl.nodup hkeys
  have hmem : ∀ t, t ∈ (((sortDesc (hybridFuse (content_model titles (n * 2))
      (collab_model user_id (n * 2)) (pop_model (n * 2)))).map Prod.fst).filter
        (fun t => decide (t ∉ titles.toList))).take n →
      t ∈ (movies.map Movie.title).dedup.filter (fun t => decide (t ∉ titles.toList)) := by
    intro t ht
    have ht2 := List.mem_of_mem_take ht
    rw [List.mem_filter] at ht2 ⊢
    obtain ⟨ht3, ht4⟩ := ht2
    refine ⟨?_, ht4⟩
    rw [List.mem_dedup]
    have ht5 : t ∈ mapKeys (hybridFuse (content_model titles (n * 2))
        (collab_model user_id (n * 2)) (pop_model (n * 2))) := hperm.mem_iff.mp ht3
    rw [mem_mapKeys_hybridFuse] at ht5
    apply hsub
    simp only [List.mem_append]
    tauto
  refine ⟨by rw [hrec]; exact hnodup, by rw [hrec]; exact List.length_take_le _ _, ?_⟩
  rw [hrec]
  have hcard : ((((sortDesc (hybridFuse (content_model titles (n * 2))
      (collab_model user_id (n * 2)) (pop_model (n * 2)))).map Prod.fst).filter
        (fun t => decide (t ∉ titles.toList))).take n).toFinset.card
      ≤ ((movies.map Movie.title).dedup.filter
          (fun t => decide (t ∉ titles.toList))).toFinset.card := by
    apply Finset.card_le_card
    intro x hx
    rw [List.mem_toFinset] at hx ⊢
    exact hmem x hx
  have hlen := List.toFinset_card_le ((movies.map Movie.title).dedup.filter
    (fun t => decide (t ∉ titles.toList)))
  rw [← List.toFinset_card_of_nodup hnodup]
  exact le_trans hcard hlen

theorem c2_hybrid_length_bounds_witness :
    (HybridRecommender.recommend (fun _ _ => []) (fun _ _ => [])
        (fun _ => c2Movies.map Movie.title) (Titles.list ["X"]) 7 2).Nodup
      ∧ (HybridRecommender.recommend (fun _ _ => []) (fun _ _ => [])
          (fun _ => c2Movies.map Movie.title) (Titles.list ["X"]) 7 2).length ≤ 2
      ∧ (HybridRecommender.recommend (fun _ _ => []) (fun _ _ => [])
          (fun _ => c2Movies.map Movie.title) (Titles.list ["X"]) 7 2).length
        ≤ ((c2Movies.map Movie.title).dedup.filter
            (fun t => decide (t ∉ (Titles.list ["X"]).toList))).length :=
  c2_hybrid_length_bounds c2Movies (fun _ _ => []) (fun _ _ => [])
    (fun _ => c2Movies.map Movie.title) (Titles.list ["X"]) 7 2 (by decide)
    (fun t ht => by simpa using ht)

set_option maxRecDepth 40000 in
/-- C5: for every catalog and rating table, `PopularityRecommender` returns
at most n titles, each belonging to a catalog movie whose vote count is at
least `m`, the 90th percentile of vote counts (`popM`); every ranked entry
carries the weighted-rating score `(v/(v+m))·R + (m/(v+m))·C` with `C` the
mean vote average (`popC`); the ranking is descending in that score; the
output is empty whenever nothing qualifies or the rating table is empty;
and in the spec's scenario (A: 100 votes of 4.5, B: 5 votes of 5.0,
C: 50 votes of 4.0) title "B" is never returned, for any n. -/
theorem c5_popularity :
    (∀ (movies : List Movie) (ratings : List Rating) (n : ℕ),
        (PopularityRecommender.recommend movies ratings n).length ≤ n
      ∧ (∀ t, t ∈ PopularityRecommender.recommend movies ratings n →
          ∃ mv v R m, mv ∈ movies ∧ mv.title = t
            ∧ voteStats ratings mv.movieId = some (v, R)
            ∧ popM movies ratings = some m ∧ m ≤ (v : ℚ))
      ∧ (∀ mv s, (mv, s) ∈ popularitySorted movies ratings →
          ∃ v R m cc, voteStats ratings mv.movieId = some (v, R)
            ∧ popM movies ratings = some m ∧ popC movies ratings = some cc
            ∧ m ≤ (v : ℚ) ∧ s = weighted_rating v R m cc)
      ∧ (popularitySorted movies ratings).Pairwise (fun a b => b.2 ≤ a.2)
      ∧ (qualifiedMovies movies ratings = [] →
          PopularityRecommender.recommend movies ratings n = [])
      ∧ (ratings = [] → PopularityRecommender.recommend movies ratings n = []))
    ∧ (∀ n, "B" ∉ PopularityRecommender.recommend scenMovies scenRatings n) := by
  constructor
  · intro movies ratings n
    refine ⟨List.length_take_le _ _, ?_, ?_, sortDesc_sorted _, ?_, ?_⟩
    · intro t ht
      unfold PopularityRecommender.recommend at ht
      have ht2 := List.mem_of_mem_take ht
      rw [List.mem_map] at ht2
      obtain ⟨⟨mv, s⟩, hmem, htt⟩ := ht2
      rw [mem_popularitySorted] at hmem
      obtain ⟨v, R, hq, rfl⟩ := hmem
      rw [mem_qualifiedMovies] at hq
      obtain ⟨hmv, hvs, m, hpm, hle⟩ := hq
      exact ⟨mv, v, R, m, hmv, htt, hvs, hpm, hle⟩
    · intro mv s hmem
      rw [mem_popularitySorted] at hmem
      obtain ⟨v, R, hq, rfl⟩ := hmem
      rw [mem_qualifiedMovies] at hq
      obtain ⟨hmv, hvs, m, hpm, hle⟩ := hq
      obtain ⟨cc, hpc⟩ := popC_isSome movies ratings mv (v, R) hmv hvs
      refine ⟨v, R, m, cc, hvs, hpm, hpc, hle, ?_⟩
      rw [hpm, hpc]
      rfl
    · intro hq
      unfold PopularityRecommender.recommend
      rw [popularitySorted_eq_nil movies ratings hq]
      simp
    · intro hr
      subst hr
      unfold PopularityRecommender.recommend
      rw [popularitySorted_eq_nil movies [] (qualifiedMovies_ratings_nil movies)]
      simp
  · have hsc : popularitySorted scenMovies scenRatings = [(⟨1, "A", "Action"⟩, 9 / 2)] := by
      with_unfolding_all rfl
    intro n hB
    unfold PopularityRecommender.recommend at hB
    rw [hsc] at hB
    have hB2 := List.mem_of_mem_take hB
    simp at hB2

set_option maxRecDepth 40000 in
theorem c5_popularity_witness :
    (∃ mv v R m, mv ∈ scenMovies ∧ mv.title = "A"
        ∧ voteStats scenRatings mv.movieId = some (v, R)
        ∧ popM scenMovies scenRatings = some m ∧ m ≤ (v : ℚ))
      ∧ PopularityRecommender.recommend scenMovies [] 3 = []
      ∧ "B" ∉ PopularityRecommender.recommend scenMovies scenRatings 5 :=
  ⟨(c5_popularity.1 scenMovies scenRatings 1).2.1 "A"
      (of_decide_eq_true (by with_unfolding_all rfl)),
   (c5_popularity.1 scenMovies [] 3).2.2.2.2.2 rfl,
   c5_popularity.2 5⟩

/-- C6 counterexample: for user 1 of `c6Ratings` (who has one rating), the
two candidates carry accumulated scores 1/2 (movie 1, "T1") and 3/4
(movie 2, "T2"); the score-descending top ids are [2, 1], yet the returned
list is ["T1", "T2"] — catalog order, ascending in score — because line 214
resolves the selected ids through a catalog-order `isin` filter. -/
theorem c6_order_counterexample :
    CollaborativeRecommender.recommend c6Movies c6Ratings c6Corr 1 2 = ["T1", "T2"]
      ∧ lookupScore (collabScores c6Corr c6Ratings 1) 1 = some (1 / 2)
      ∧ lookupScore (collabScores c6Corr c6Ratings 1) 2 = some (3 / 4)
      ∧ ((sortDesc (collabScores c6Corr c6Ratings 1)).take 2).map Prod.fst = [2, 1]
      ∧ c6Movies.map (fun mv => (mv.movieId, mv.title)) = [(1, "T1"), (2, "T2"), (3, "T3")]
      ∧ ((1 : ℚ) / 2) < 3 / 4 :=
  of_decide_eq_true (by with_unfolding_all rfl)

/-- C6 (amended): for a user with at least one rating, the candidate map is
sorted descending by accumulated score and the top n ids are selected — the
accumulated score of every non-seed candidate in the pivot index is the sum
of its correlation contributions over the user's matrix-resident seed
items — but the returned titles appear in catalog (movies_df) order, as a
sublist of the catalog title sequence, not in score order. -/
theorem c6_collab_order (movies : List Movie) (ratings : List Rating)
    (corr : ℕ → ℕ → ℚ) (user_id n : ℕ)
    (hu : collabUserRatings ratings user_id ≠ []) :
    (sortDesc (collabScores corr ratings user_id)).Pairwise (fun a b => b.2 ≤ a.2)
      ∧ (CollaborativeRecommender.recommend movies ratings corr user_id n).Sublist
          (movies.map Movie.title)
      ∧ (∀ t, t ∈ CollaborativeRecommender.recommend movies ratings corr user_id n ↔
          ∃ mv, mv ∈ movies ∧ mv.title = t
            ∧ mv.movieId ∈ collabTopIds corr ratings user_id n)
      ∧ (∀ id, id ∈ pivotIndex ratings → id ∉ collabHighRated ratings user_id →
          (collabHighRated ratings user_id).filter
              (fun s => decide (s ∈ pivotIndex ratings)) ≠ [] →
            lookupScore (collabScores corr ratings user_id) id
              = some ((((collabHighRated ratings user_id).filter
                  (fun s => decide (s ∈ pivotIndex ratings))).map
                    (fun s => corr (idxOf (pivotIndex ratings) s)
                      (idxOf (pivotIndex ratings) id))).sum)) := by
  have hrec : CollaborativeRecommender.recommend movies ratings corr user_id n
      = (movies.filter
          (fun mv => decide (mv.movieId ∈ collabTopIds corr ratings user_id n))).map
            Movie.title := by
    unfold CollaborativeRecommender.recommend
    rw [if_neg hu]
  refine ⟨sortDesc_sorted _, ?_, ?_, ?_⟩
  · rw [hrec]
    exact List.Sublist.map _ (List.filter_sublist _)
  · intro t
    rw [hrec, List.mem_map]
    constructor
    · rintro ⟨mv, hmv, rfl⟩
      rw [List.mem_filter] at hmv
      exact ⟨mv, hmv.1, rfl, by simpa using hmv.2⟩
    · rintro ⟨mv, hmv, htt, hid⟩
      exact ⟨mv, List.mem_filter.mpr ⟨hmv, by simpa using hid⟩, htt⟩
  · intro id hid hhigh hvne
    have hlen : ¬ ((collabHighRated ratings user_id).filter
        (fun s => decide (s ∈ pivotIndex ratings))).length = 0 := by
      intro h
      exact hvne (List.length_eq_zero.mp h)
    rw [lookupScore_collabScores corr ratings user_id id hid hhigh, if_neg hlen]

theorem c6_collab_order_witness :
    (sortDesc (collabScores c6Corr c6Ratings 1)).Pairwise (fun a b => b.2 ≤ a.2)
      ∧ (CollaborativeRecommender.recommend c6Movies c6Ratings c6Corr 1 2).Sublist
          (c6Movies.map Movie.title)
      ∧ lookupScore (collabScores c6Corr c6Ratings 1) 1
          = some ((((collabHighRated c6Ratings 1).filter
              (fun s => decide (s ∈ pivotIndex c6Ratings))).map
                (fun s => c6Corr (idxOf (pivotIndex c6Ratings) s)
                  (idxOf (pivotIndex c6Ratings) 1))).sum) :=
  ⟨(c6_collab_order c6Movies c6Ratings c6Corr 1 2
      (of_decide_eq_true (by with_unfolding_all rfl))).1,
   (c6_collab_order c6Movies c6Ratings c6Corr 1 2
      (of_decide_eq_true (by with_unfolding_all rfl))).2.1,
   (c6_collab_order c6Movies c6Ratings c6Corr 1 2
      (of_decide_eq_true (by with_unfolding_all rfl))).2.2.2 1
        (of_decide_eq_true (by with_unfolding_all rfl))
        (of_decide_eq_true (by with_unfolding_all rfl))
        (of_decide_eq_true (by with_unfolding_all rfl))⟩

/-- C7 counterexample: with the two orthogonal unit seed rows 0 and 1 of
`c7Rows`, the per-item score the code uses for item 0 (the mean of the
precomputed pairwise similarities) is 1/2, while the cosine similarity
between item 0's row and the mean query vector is (1/2)/√(1/2) = √2/2:
the two are not equal, so the scores are not the cosines of the spec's
on-demand computation. -/
theorem c7_cosine_counterexample :
    dotQ (c7Rows 0) (c7Rows 0) = 1 ∧ dotQ (c7Rows 1) (c7Rows 1) = 1
      ∧ contentUserProfile c7Rows [0, 1] 0 = 1 / 2
      ∧ ((contentUserProfile c7Rows [0, 1] 0 : ℚ) : ℝ)
          ≠ specCosineSim (contentQueryVec c7Rows [0, 1]) (c7Rows 0) := by
  have h1 : dotQ (c7Rows 0) (c7Rows 0) = 1 := by with_unfolding_all rfl
  have h2 : dotQ (c7Rows 1) (c7Rows 1) = 1 := by with_unfolding_all rfl
  have h3 : contentUserProfile c7Rows [0, 1] 0 = 1 / 2 := by with_unfolding_all rfl
  have h4 : dotQ (contentQueryVec c7Rows [0, 1]) (c7Rows 0) = 1 / 2 := by
    with_unfolding_all rfl
  have h5 : dotQ (contentQueryVec c7Rows [0, 1]) (contentQueryVec c7Rows [0, 1]) = 1 / 2 := by
    with_unfolding_all rfl
  refine ⟨h1, h2, h3, ?_⟩
  rw [h3]
  unfold specCosineSim
  rw [h4, h5, h1]
  push_cast
  rw [Real.sqrt_one, mul_one]
  have hs_pos : 0 < Real.sqrt (1 / 2 : ℝ) := Real.sqrt_pos.mpr (by norm_num)
  have hs_lt : Real.sqrt (1 / 2 : ℝ) < 1 := by
    have h6 : Real.sqrt (1 / 2 : ℝ) < Real.sqrt 1 :=
      Real.sqrt_lt_sqrt (by norm_num) (by norm_num)
    simpa [Real.sqrt_one] using h6
  intro heq
  rw [eq_div_iff (ne_of_gt hs_pos)] at heq
  nlinarith [hs_pos, hs_lt, heq]

/-- C7 (corrected): over unit-norm TF-IDF rows and a non-empty resolved
seed list, the per-item score the code computes from its precomputed
similarity matrix equals ‖q‖ times the cosine similarity between the item's
row and the spec's on-demand query vector q (the element-wise mean of the
seed rows) — proportional with the nonnegative constant ‖q‖ = √⟨q,q⟩, not
equal to it — and consequently the two rankings coincide: the code's score
of item i is at most that of item j exactly when the spec's cosine of i is
at most that of j. -/
theorem c7_content_refinement {d : ℕ} (rows : ℕ → Fin d → ℚ) (valid : List ℕ)
    (hunit : ∀ k, dotQ (rows k) (rows k) = 1) (hne : valid ≠ []) :
    (∀ i, ((contentUserProfile rows valid i : ℚ) : ℝ)
        = Real.sqrt ((dotQ (contentQueryVec rows valid) (contentQueryVec rows valid) : ℚ) : ℝ)
          * specCosineSim (contentQueryVec rows valid) (rows i))
      ∧ (∀ i j, contentUserProfile rows valid i ≤ contentUserProfile rows valid j ↔
          specCosineSim (contentQueryVec rows valid) (rows i)
            ≤ specCosineSim (contentQueryVec rows valid) (rows j)) := by
  have hne2 := hne
  clear hne2
  have hcos : ∀ i, specCosineSim (contentQueryVec rows valid) (rows i)
      = ((dotQ (contentQueryVec rows valid) (rows i) : ℚ) : ℝ)
        / Real.sqrt ((dotQ (contentQueryVec rows valid) (contentQueryVec rows valid) : ℚ) : ℝ) := by
    intro i
    unfold specCosineSim
    rw [hunit i]
    norm_num
  have hprof : ∀ i, contentUserProfile rows valid i
      = dotQ (contentQueryVec rows valid) (rows i) :=
    fun i => contentUserProfile_eq_dotQ rows valid i
  by_cases hz : dotQ (contentQueryVec rows valid) (contentQueryVec rows valid) = 0
  · have hdot0 : ∀ i, dotQ (contentQueryVec rows valid) (rows i) = 0 :=
      fun i => dotQ_zero_of_self_zero _ (rows i) hz
    constructor
    · intro i
      rw [hprof i, hdot0 i, hcos i, hdot0 i, hz]
      simp
    · intro i j
      rw [hprof i, hprof j, hdot0 i, hdot0 j, hcos i, hcos j, hdot0 i, hdot0 j]
      simp
  · have hpos : (0 : ℚ) < dotQ (contentQueryVec rows valid) (contentQueryVec rows valid) :=
      lt_of_le_of_ne (dotQ_self_nonneg _) (Ne.symm hz)
    have hposR : (0 : ℝ)
        < ((dotQ (contentQueryVec rows valid) (contentQueryVec rows valid) : ℚ) : ℝ) := by
      exact_mod_cast hpos
    have hsq : (0 : ℝ) < Real.sqrt
        ((dotQ (contentQueryVec rows valid) (contentQueryVec rows valid) : ℚ) : ℝ) :=
      Real.sqrt_pos.mpr hposR
    constructor
    · intro i
      rw [hprof i, hcos i, mul_comm, div_mul_cancel₀ _ (ne_of_gt hsq)]
    · intro i j
      rw [hprof i, hprof j, hcos i, hcos j, div_le_div_iff_of_pos_right hsq, Rat.cast_le]

theorem c7_content_refinement_witness :
    (contentUserProfile c7Rows [0, 1] 0 ≤ contentUserProfile c7Rows [0, 1] 1 ↔
      specCosineSim (contentQueryVec c7Rows [0, 1]) (c7Rows 0)
        ≤ specCosineSim (contentQueryVec c7Rows [0, 1]) (c7Rows 1)) :=
  (c7_content_refinement c7Rows [0, 1]
    (fun k => by
      by_cases hk : k = 0
      · subst hk
        with_unfolding_all rfl
      · show dotQ (c7Rows k) (c7Rows k) = 1
        unfold dotQ c7Rows
        rw [Fin.sum_univ_two]
        simp [hk])
    (by decide)).2 0 1
